import Mathlib

/-!
Shallow embedding of `yarn-easy-patch` (src/bin/cli.js).

The CLI orchestrates subprocesses and the filesystem.  Subprocess execution is
modelled by an oracle `run : Invocation → RunResult`, the filesystem by an `FS`
record (an access predicate plus a directory listing), and `path.resolve` by an
abstract `resolve : String → String`.  JavaScript string primitives
(`startsWith`, `endsWith`, `indexOf`, `substring`, `split`, `trim`, `||` on
strings) are translated character-list by character-list so that every
definition is executable and kernel-reducible.
-/

namespace YarnEasyPatch

/-! ## JavaScript string primitives -/

/-- JS `s.startsWith(p)`. -/
def jsStartsWith (s p : String) : Bool :=
  p.toList.isPrefixOf s.toList

/-- JS `s.endsWith(p)`. -/
def jsEndsWith (s p : String) : Bool :=
  p.toList.isSuffixOf s.toList

/-- Auxiliary: index of the first character satisfying `p` (JS `indexOf`,
with `none` standing for JS `-1`). -/
def jsIndexOfAux (p : Char → Bool) : List Char → Option Nat
  | [] => none
  | c :: rest => if p c then some 0 else (jsIndexOfAux p rest).map (· + 1)

/-- JS `s.indexOf(c)` for a single-character needle. -/
def jsIndexOf (s : String) (c : Char) : Option Nat :=
  jsIndexOfAux (fun x => x == c) s.toList

/-- JS `s.substring(i)` (from index `i` to the end). -/
def jsSubstringFrom (s : String) (i : Nat) : String :=
  ⟨s.toList.drop i⟩

/-- JS `s.substring(0, i)`. -/
def jsSubstringTo (s : String) (i : Nat) : String :=
  ⟨s.toList.take i⟩

/-- JS `s.replace(/\x2f/g, "-")`: every `/` becomes `-`. -/
def jsReplaceSlashes (s : String) : String :=
  ⟨s.toList.map (fun c => if c = '/' then '-' else c)⟩

/-- JS `a || b` on strings: the empty string is falsy. -/
def jsOrS (a b : String) : String :=
  if a = "" then b else a

/-- Auxiliary for JS `split`: accumulates the current segment reversed. -/
def jsSplitAux (sep : Char) : List Char → List Char → List String
  | [], acc => [⟨acc.reverse⟩]
  | c :: rest, acc =>
    if c = sep then ⟨acc.reverse⟩ :: jsSplitAux sep rest []
    else jsSplitAux sep rest (c :: acc)

/-- JS `s.split(sep)` for a single-character separator. -/
def jsSplit (s : String) (sep : Char) : List String :=
  jsSplitAux sep s.toList []

/-- JS `s.trim()`. -/
def jsTrim (s : String) : String :=
  ⟨((s.toList.dropWhile Char.isWhitespace).reverse.dropWhile Char.isWhitespace).reverse⟩

/-- Node `path.join(a, b)` for already-normalized segments. -/
def pathJoin (a b : String) : String :=
  a ++ "/" ++ b

/-- Node `path.basename(p)` for paths without a trailing slash:
everything after the last `/`. -/
def basename (p : String) : String :=
  ⟨(p.toList.reverse.takeWhile (fun c => c ≠ '/')).reverse⟩

/-! ## Filesystem and subprocess model -/

/-- Filesystem snapshot: whether `fs.access` succeeds on a path, and the
entries `fs.readdir` returns for a directory. -/
structure FS where
  accessOk : String → Bool
  readdir : String → List String

/-- The resolved result of `runCommand`: captured stdout, captured stderr and
the exit code (a timeout surfaces as the conventional code 124, a spawn error
as code 1, exactly as the `exitOnError = false` paths of `runCommand` do). -/
structure RunResult where
  stdout : String
  stderr : String
  code : Int
deriving DecidableEq

/-- One subprocess invocation as issued through `runCommand`:
program, argument vector, working directory, timeout in milliseconds. -/
structure Invocation where
  command : String
  args : List String
  cwd : Option String
  timeout : Nat
deriving DecidableEq

/-! ## Patch Locator (`findExistingPatches`, cli.js lines 97-121) -/

/-- `findExistingPatches(packageName, patchesDir)`: empty when the directory
is inaccessible, otherwise the `.patch` entries whose name starts with the
normalized package name followed by `-`, joined onto the directory. -/
def findExistingPatches (packageName patchesDir : String) (fsys : FS) : List String :=
  if fsys.accessOk patchesDir then
    let files := fsys.readdir patchesDir
    let normalizedName := jsReplaceSlashes packageName
    let matchingPatches := files.filter (fun file =>
      jsEndsWith file ".patch" && jsStartsWith file (normalizedName ++ "-"))
    matchingPatches.map (fun file => pathJoin patchesDir file)
  else []

/-! ## Patch Applier (`tryApplyPatch`, cli.js lines 129-206) -/

/-- Strategy A dry run: `patch --dry-run --no-backup-if-mismatch --forward
--batch -p1 -i <patch>` with a 5s timeout. -/
def patchDryRunInv (p targetDir : String) : Invocation :=
  ⟨"patch",
    ["--dry-run", "--no-backup-if-mismatch", "--forward", "--batch", "-p1", "-i", p],
    some targetDir, 5000⟩

/-- Strategy A real apply: same flags without `--dry-run`, 10s timeout. -/
def patchApplyInv (p targetDir : String) : Invocation :=
  ⟨"patch",
    ["--no-backup-if-mismatch", "--forward", "--batch", "-p1", "-i", p],
    some targetDir, 10000⟩

/-- Strategy B check: `git apply --check --ignore-whitespace <patch>`, 5s. -/
def gitCheckInv (p targetDir : String) : Invocation :=
  ⟨"git", ["apply", "--check", "--ignore-whitespace", p], some targetDir, 5000⟩

/-- Strategy B real apply: `git apply --ignore-whitespace <patch>`, 10s. -/
def gitApplyInv (p targetDir : String) : Invocation :=
  ⟨"git", ["apply", "--ignore-whitespace", p], some targetDir, 10000⟩

/-- An invocation is check-only (dry-run mode) when it carries `--dry-run`
or `--check`; such commands inspect applicability without modifying files. -/
def isCheckMode (inv : Invocation) : Bool :=
  inv.args.contains "--dry-run" || inv.args.contains "--check"

/-- The record `tryApplyPatch` resolves with
(`success`, `output`, `canApply`). -/
structure PatchResult where
  success : Bool
  output : String
  canApply : Bool
deriving DecidableEq

/-- `tryApplyPatch(patchPath, targetDir)` together with the ordered trace of
subprocess invocations it issues.  Strategy A (`patch`) is checked first with
a dry run; on success the real `patch` apply runs and `canApply` is `true`.
Otherwise `git apply --check` is consulted; on its success the real
`git apply` runs.  When both checks fail the result is
`success = false, canApply = false` with the first non-empty diagnostic of
the two failed checks. -/
def tryApplyPatch (patchPath targetDir : String) (resolve : String → String)
    (run : Invocation → RunResult) : PatchResult × List Invocation :=
  let absolutePatchPath := resolve patchPath
  let dryRunResult := run (patchDryRunInv absolutePatchPath targetDir)
  if dryRunResult.code = 0 then
    let applyResult := run (patchApplyInv absolutePatchPath targetDir)
    (⟨applyResult.code == 0, jsOrS applyResult.stdout applyResult.stderr, true⟩,
      [patchDryRunInv absolutePatchPath targetDir, patchApplyInv absolutePatchPath targetDir])
  else
    let gitCheckResult := run (gitCheckInv absolutePatchPath targetDir)
    if gitCheckResult.code = 0 then
      let applyResult := run (gitApplyInv absolutePatchPath targetDir)
      (⟨applyResult.code == 0, jsOrS applyResult.stdout applyResult.stderr, true⟩,
        [patchDryRunInv absolutePatchPath targetDir, gitCheckInv absolutePatchPath targetDir,
          gitApplyInv absolutePatchPath targetDir])
    else
      (⟨false,
        jsOrS (jsOrS (jsOrS dryRunResult.stderr dryRunResult.stdout) gitCheckResult.stderr)
          gitCheckResult.stdout,
        false⟩,
        [patchDryRunInv absolutePatchPath targetDir, gitCheckInv absolutePatchPath targetDir])

/-! ## `stripVersion` (cli.js lines 213-230) -/

/-- `stripVersion(packageName)`: removes the `@version` suffix, looking for
the `@` after the scope separator `/` on scoped packages. -/
def stripVersion (packageName : String) : String :=
  if jsStartsWith packageName "@" then
    match jsIndexOf packageName '/' with
    | none => packageName
    | some firstSlash =>
      let afterScope := jsSubstringFrom packageName firstSlash
      match jsIndexOf afterScope '@' with
      | none => packageName
      | some versionAt => jsSubstringTo packageName (firstSlash + versionAt)
  else
    match jsIndexOf packageName '@' with
    | none => packageName
    | some atIndex => jsSubstringTo packageName atIndex

/-! ## Cleanup step (cli.js lines 414-448) -/

/-- Outcome of the cleanup step: the old patch paths it attempted to unlink,
those whose unlink succeeded, and those whose unlink failed (each failure is
only warned about; the loop continues and nothing aborts). -/
structure CleanupResult where
  attempted : List String
  deleted : List String
  warnings : List String
deriving DecidableEq

/-- The patches of the current listing whose basename is not among the old
patch basenames (`currentPatches.filter` over the `oldPatchNames` set). -/
def newlyCreated (existingPatches currentPatches : List String) : List String :=
  let oldPatchNames := existingPatches.map basename
  currentPatches.filter (fun p => !(oldPatchNames.contains (basename p)))

/-- The cleanup step: when there were existing patches, recompute the current
patches and keep those whose basename was not among the old ones; if any such
newly created patch exists, unlink every old patch (failures become
warnings). -/
def cleanupStep (existingPatches currentPatches : List String)
    (unlinkOk : String → Bool) : CleanupResult :=
  if existingPatches.length > 0 then
    if (newlyCreated existingPatches currentPatches).length > 0 then
      ⟨existingPatches,
        existingPatches.filter (fun p => unlinkOk p),
        existingPatches.filter (fun p => !(unlinkOk p))⟩
    else ⟨[], [], []⟩
  else ⟨[], [], []⟩

/-- The patch files still present once the unlinked ones are removed from the
current directory listing. -/
def remainingPatches (currentPatches deleted : List String) : List String :=
  currentPatches.filter (fun p => !(deleted.contains p))

/-! ## Output parsing of `yarn patch` (cli.js lines 364-379) -/

/-- `true` for characters the regex `.` matches (not a line terminator). -/
def nonNL (c : Char) : Bool :=
  c ≠ '\n' && c ≠ '\r'

/-- Leftmost match of `/<pat>(.+)/`: at the first position where the literal
`pat` occurs followed by at least one non-newline character, capture the
maximal run of non-newline characters. -/
def findCapture (pat : List Char) : List Char → Option (List Char)
  | [] => none
  | c :: rest =>
    if pat.isPrefixOf (c :: rest) then
      let cap := ((c :: rest).drop pat.length).takeWhile nonNL
      if cap.isEmpty then findCapture pat rest else some cap
    else findCapture pat rest

/-- Greedy length for `.+` followed by the literal `post`: the largest
`k ≥ 1` bounded by `bound` such that `post` occurs right after the first `k`
characters. -/
def greedyAux (post s : List Char) : Nat → Option Nat
  | 0 => none
  | Nat.succ k =>
    if post.isPrefixOf (s.drop (k + 1)) then some (k + 1) else greedyAux post s k

/-- Leftmost match of `/<pre>(<mid>.+)<post>/`: at the first position where
`pre` then `mid` occur, greedily capture `mid` plus the longest non-newline
run after which `post` occurs; on failure resume the scan one character
later. -/
def findCapture2 (pre mid post : List Char) : List Char → Option (List Char)
  | [] => none
  | c :: rest =>
    if pre.isPrefixOf (c :: rest) then
      let afterPre := (c :: rest).drop pre.length
      if mid.isPrefixOf afterPre then
        let tl := afterPre.drop mid.length
        match greedyAux post tl (tl.takeWhile nonNL).length with
        | some k => some (mid ++ tl.take k)
        | none => findCapture2 pre mid post rest
      else findCapture2 pre mid post rest
    else findCapture2 pre mid post rest

/-- Literal of the staging-folder regex. -/
def folderPat : List Char :=
  "You can now edit the following folder: ".toList

/-- Literal before the patch-commit command capture. -/
def cmdPre : List Char :=
  "Once you are done run ".toList

/-- Literal the patch-commit command capture must start with. -/
def cmdMid : List Char :=
  "yarn patch-commit -s ".toList

/-- Literal after the patch-commit command capture. -/
def cmdPost : List Char :=
  " and Yarn will".toList

/-! ## Main driver (cli.js lines 232-451) -/

/-- The two distinguished stdout messages the argument-handling paths print
(the long literal usage text is elided to a marker). -/
inductive OutMsg where
  | usageHelp : OutMsg
  | versionStr : String → OutMsg
deriving DecidableEq

/-- The whole process environment `main` runs against: CLI arguments, working
directory, the package version string, the filesystem before and after the
yarn workflow, `path.resolve`, the subprocess oracle and the unlink
outcomes. -/
structure Env where
  argv : List String
  cwd : String
  version : String
  fsBefore : FS
  fsAfter : FS
  resolve : String → String
  run : Invocation → RunResult
  unlinkOk : String → Bool

/-- Observable outcome of a run: process exit code, distinguished stdout
messages, stderr diagnostics, the ordered subprocess trace, the patch files
unlinked and the unlink warnings. -/
structure MainResult where
  exitCode : Int
  printed : List OutMsg
  errors : List String
  invocations : List Invocation
  deleted : List String
  warnings : List String
deriving DecidableEq

/-- Recognizes the `--patches-dir` flag forms. -/
def isPatchesDirFlag (arg : String) : Bool :=
  arg == "--patches-dir" || jsStartsWith arg "--patches-dir="

/-- Parsing of `--patches-dir`: the overriding directory (if any) and the
argument indices consumed as option values. -/
def patchesDirOverride (args : List String) : Option String × List Nat :=
  match args.findIdx? isPatchesDirFlag with
  | none => (none, [])
  | some idx =>
    let arg := args.getD idx ""
    if arg.toList.contains '=' then
      (some ((jsSplit arg '=').getD 1 ""), [])
    else
      match args.get? (idx + 1) with
      | none => (none, [])
      | some v => if v = "" then (none, []) else (some v, [idx + 1])

/-- The package name: the first argument that does not start with `-` and was
not consumed as an option value. -/
def packageNameOf (args : List String) : Option String :=
  let optionValueIndices := (patchesDirOverride args).2
  ((args.enum).find? (fun pr =>
    !(jsStartsWith pr.2 "-") && !(optionValueIndices.contains pr.1))).map (fun pr => pr.2)

/-- The Target Directory `<cwd>/node_modules/<version-stripped name>`. -/
def nodeModulesPathOf (cwd packageName : String) : String :=
  pathJoin (pathJoin cwd "node_modules") (stripVersion packageName)

/-- The fatal message printed when the Target Directory is absent. -/
def missingPackageMsg (cleanPackageName nodeModulesPath : String) : String :=
  "\n❌ Package " ++ cleanPackageName ++ " not found in node_modules at " ++ nodeModulesPath

/-- The diagnostic `runCommand` prints before exiting on a failed command
(the separate console.error lines are concatenated). -/
def commandFailedMsg (r : RunResult) : String :=
  "\n❌ Command failed:\n" ++ r.stdout ++ r.stderr

/-- The parse-failure diagnostic for unrecognized `yarn patch` output. -/
def parseFailedMsg (patchOutput : String) : String :=
  "\n❌ Could not parse yarn patch output. Output was:\n" ++ patchOutput

/-- The help-path result: exit 0 with the usage text. -/
def helpResult : MainResult :=
  ⟨0, [OutMsg.usageHelp], [], [], [], []⟩

/-- The pipeline after the node_modules precondition holds: apply existing
patches (fault-tolerantly), run `yarn patch`, parse its output, `rsync` the
live edits into the staging folder, run the extracted patch-commit command,
then clean up superseded patches. -/
def mainAfterCheck (env : Env)
    (packageName cleanPackageName nodeModulesPath patchesDir : String) : MainResult :=
  let existingPatches := findExistingPatches cleanPackageName patchesDir env.fsBefore
  let applyTrace := existingPatches.foldl
    (fun acc p => acc ++ (tryApplyPatch p nodeModulesPath env.resolve env.run).2) []
  let yarnInv : Invocation := ⟨"yarn", ["patch", packageName], none, 30000⟩
  let yarnRes := env.run yarnInv
  let trace1 := applyTrace ++ [yarnInv]
  if yarnRes.code = 0 then
    let patchOutput := yarnRes.stdout
    match findCapture folderPat patchOutput.toList,
        findCapture2 cmdPre cmdMid cmdPost patchOutput.toList with
    | some folderCap, some cmdCap =>
      let tempFolder := jsTrim ⟨folderCap⟩
      let patchCommitCommand := jsTrim ⟨cmdCap⟩
      let rsyncInv : Invocation :=
        ⟨"rsync",
          ["-a", "--delete", "--exclude", "node_modules", "--exclude", "*.orig",
            "--exclude", "*.rej", nodeModulesPath ++ "/", tempFolder ++ "/"],
          none, 30000⟩
      let rsyncRes := env.run rsyncInv
      let trace2 := trace1 ++ [rsyncInv]
      if rsyncRes.code = 0 then
        let commitParts := jsSplit patchCommitCommand ' '
        let commitInv : Invocation := ⟨commitParts.headD "", commitParts.tail, none, 30000⟩
        let commitRes := env.run commitInv
        let trace3 := trace2 ++ [commitInv]
        if commitRes.code = 0 then
          if existingPatches.length > 0 then
            let currentPatches := findExistingPatches cleanPackageName patchesDir env.fsAfter
            let c := cleanupStep existingPatches currentPatches env.unlinkOk
            ⟨0, [], [], trace3, c.deleted, c.warnings⟩
          else ⟨0, [], [], trace3, [], []⟩
        else ⟨1, [], [commandFailedMsg commitRes], trace3, [], []⟩
      else ⟨1, [], [commandFailedMsg rsyncRes], trace2, [], []⟩
    | _, _ => ⟨1, [], [parseFailedMsg patchOutput], trace1, [], []⟩
  else ⟨1, [], [commandFailedMsg yarnRes], trace1, [], []⟩

/-- The CLI entry flow: version flag, `--patches-dir` parsing, package-name
detection, help path (taken when the package name is missing or the JS-falsy
empty string, or a help flag is present), node_modules precondition, then the
pipeline. -/
def main (env : Env) : MainResult :=
  let args := env.argv
  if args.contains "--version" || args.contains "-v" then
    ⟨0, [OutMsg.versionStr env.version], [], [], [], []⟩
  else
    let patchesDir := (patchesDirOverride args).1.getD
      (pathJoin (pathJoin env.cwd ".yarn") "patches")
    match packageNameOf args with
    | none => helpResult
    | some packageName =>
      if packageName == "" || args.contains "--help" || args.contains "-h" then helpResult
      else
        let cleanPackageName := stripVersion packageName
        let nodeModulesPath := nodeModulesPathOf env.cwd packageName
        if env.fsBefore.accessOk nodeModulesPath then
          mainAfterCheck env packageName cleanPackageName nodeModulesPath patchesDir
        else
          ⟨1, [], [missingPackageMsg cleanPackageName nodeModulesPath], [], [], []⟩

/-! ## Concrete oracles and environments used as instantiation data -/

/-- Oracle under which every subprocess succeeds with stdout `ok`. -/
def runAllOk : Invocation → RunResult := fun _ => ⟨"ok", "", 0⟩

/-- Oracle under which every subprocess fails with stderr `diag`. -/
def runAllFail : Invocation → RunResult := fun _ => ⟨"", "diag", 1⟩

/-- Oracle under which `patch` fails but `git` succeeds. -/
def runPatchFailGitOk : Invocation → RunResult := fun inv =>
  if inv.command = "git" then ⟨"", "", 0⟩ else ⟨"", "nope", 1⟩

/-- Environment whose package is absent from node_modules. -/
def envMissing : Env :=
  ⟨["left-pad"], "/w", "1.0.0", ⟨fun _ => false, fun _ => []⟩,
    ⟨fun _ => false, fun _ => []⟩, id, runAllOk, fun _ => true⟩

/-- Environment invoked with only the version flag. -/
def envVersionOnly : Env :=
  ⟨["-v"], "/w", "9.9.9", ⟨fun _ => true, fun _ => []⟩,
    ⟨fun _ => true, fun _ => []⟩, id, runAllOk, fun _ => true⟩

/-- Environment invoked with only a `--patches-dir` option and its value. -/
def envFlagsOnly : Env :=
  ⟨["--patches-dir", "d"], "/w", "1.0.0", ⟨fun _ => true, fun _ => []⟩,
    ⟨fun _ => true, fun _ => []⟩, id, runAllOk, fun _ => true⟩

/-! ## Helper lemmas -/

theorem jsIndexOfAux_eq_none (p : Char → Bool) (l : List Char)
    (h : ∀ x ∈ l, p x = false) : jsIndexOfAux p l = none := by
  induction l with
  | nil => rfl
  | cons a as ih =>
    simp only [jsIndexOfAux, h a (List.mem_cons_self a as), Bool.false_eq_true, if_false,
      ih (fun x hx => h x (List.mem_cons_of_mem a hx)), Option.map_none']

theorem jsIndexOfAux_append (p : Char → Bool) (l r : List Char) (c : Char)
    (h : ∀ x ∈ l, p x = false) (hc : p c = true) :
    jsIndexOfAux p (l ++ c :: r) = some l.length := by
  induction l with
  | nil => simp [jsIndexOfAux, hc]
  | cons a as ih =>
    have h1 := h a (List.mem_cons_self a as)
    have h2 := ih (fun x hx => h x (List.mem_cons_of_mem a hx))
    simp [jsIndexOfAux, h1, h2]

theorem beq_char_false {x c : Char} (h : ¬ x = c) : (x == c) = false :=
  beq_eq_false_iff_ne.mpr h

theorem stripVersion_unscoped (base ver : String) (hne : base.toList ≠ [])
    (hat : '@' ∉ base.toList) : stripVersion (base ++ "@" ++ ver) = base := by
  obtain ⟨bl⟩ := base
  obtain ⟨vl⟩ := ver
  have hdata : (String.mk bl ++ "@" ++ String.mk vl).toList = bl ++ '@' :: vl := by
    simp [String.toList, String.data_append]
  have hstart : jsStartsWith (String.mk bl ++ "@" ++ String.mk vl) "@" = false := by
    unfold jsStartsWith
    rw [hdata]
    cases bl with
    | nil => exact absurd rfl hne
    | cons b bs =>
      have hb : ¬ b = '@' := fun he => hat (he ▸ List.mem_cons_self b bs)
      simp [List.isPrefixOf, beq_char_false (fun he => hb he.symm)]
  have hidx : jsIndexOf (String.mk bl ++ "@" ++ String.mk vl) '@' = some bl.length := by
    unfold jsIndexOf
    rw [hdata]
    exact jsIndexOfAux_append _ _ _ _
      (fun x hx => beq_char_false (fun he => hat (he ▸ hx))) (by simp)
  unfold stripVersion
  rw [hstart, hidx]
  simp only [Bool.false_eq_true, if_false]
  unfold jsSubstringTo
  rw [hdata]
  exact String.ext (List.take_left' rfl)

theorem stripVersion_no_at (s : String) (hat : '@' ∉ s.toList) :
    stripVersion s = s := by
  have hstart : jsStartsWith s "@" = false := by
    unfold jsStartsWith
    cases hs : s.toList with
    | nil => rfl
    | cons b bs =>
      have hb : ¬ b = '@' := fun he => hat (by rw [hs, he]; exact List.mem_cons_self _ _)
      simp [List.isPrefixOf, beq_char_false (fun he => hb he.symm)]
  have hidx : jsIndexOf s '@' = none :=
    jsIndexOfAux_eq_none _ _ (fun x hx => beq_char_false (fun he => hat (he ▸ hx)))
  unfold stripVersion
  rw [hstart, hidx]
  simp

theorem scoped_toList (sl pl rest : List Char) :
    (String.mk ('@' :: sl) ++ String.mk ('/' :: pl) ++ String.mk rest).toList =
      '@' :: sl ++ '/' :: pl ++ rest := by
  simp [String.toList, String.data_append]

theorem stripVersion_scoped (scope pkg ver : String)
    (hsl : '/' ∉ scope.toList) (hpk : '@' ∉ pkg.toList) :
    stripVersion ("@" ++ scope ++ "/" ++ pkg ++ "@" ++ ver) =
      "@" ++ scope ++ "/" ++ pkg := by
  obtain ⟨sl⟩ := scope
  obtain ⟨pl⟩ := pkg
  obtain ⟨vl⟩ := ver
  have hshape : ("@" ++ String.mk sl ++ "/" ++ String.mk pl ++ "@" ++ String.mk vl : String) =
      String.mk ('@' :: sl) ++ String.mk ('/' :: pl) ++ String.mk ('@' :: vl) := by
    apply String.ext
    simp [String.data_append]
  have hshape2 : ("@" ++ String.mk sl ++ "/" ++ String.mk pl : String) =
      String.mk (('@' :: sl) ++ '/' :: pl) := by
    apply String.ext
    simp [String.data_append]
  rw [hshape, hshape2]
  have hdata := scoped_toList sl pl ('@' :: vl)
  have hstart : jsStartsWith
      (String.mk ('@' :: sl) ++ String.mk ('/' :: pl) ++ String.mk ('@' :: vl)) "@" = true := by
    unfold jsStartsWith
    rw [hdata]
    simp [List.isPrefixOf]
  have hidx1 : jsIndexOf
      (String.mk ('@' :: sl) ++ String.mk ('/' :: pl) ++ String.mk ('@' :: vl)) '/' =
      some (sl.length + 1) := by
    unfold jsIndexOf
    rw [hdata]
    have : ('@' :: sl) ++ '/' :: pl ++ '@' :: vl = ('@' :: sl) ++ '/' :: (pl ++ '@' :: vl) := by
      simp
    rw [this]
    rw [jsIndexOfAux_append _ ('@' :: sl) _ '/'
      (fun x hx => by
        rcases List.mem_cons.mp hx with he | hm
        · exact beq_char_false (by simp [he])
        · exact beq_char_false (fun he2 => hsl (he2 ▸ hm)))
      (by simp)]
    simp
  have hdrop : jsSubstringFrom
      (String.mk ('@' :: sl) ++ String.mk ('/' :: pl) ++ String.mk ('@' :: vl))
      (sl.length + 1) = String.mk ('/' :: pl ++ '@' :: vl) := by
    unfold jsSubstringFrom
    rw [hdata]
    apply congrArg
    have : ('@' :: sl) ++ '/' :: pl ++ '@' :: vl =
        ('@' :: sl) ++ ('/' :: pl ++ '@' :: vl) := by simp
    rw [this]
    have hlen : ('@' :: sl).length = sl.length + 1 := by simp
    rw [← hlen, List.drop_left]
  have hidx2 : jsIndexOf (String.mk ('/' :: pl ++ '@' :: vl)) '@' =
      some (pl.length + 1) := by
    unfold jsIndexOf
    have : (String.mk ('/' :: pl ++ '@' :: vl)).toList = ('/' :: pl) ++ '@' :: vl := by
      simp [String.toList]
    rw [this]
    rw [jsIndexOfAux_append _ ('/' :: pl) _ '@'
      (fun x hx => by
        rcases List.mem_cons.mp hx with he | hm
        · exact beq_char_false (by simp [he])
        · exact beq_char_false (fun he2 => hpk (he2 ▸ hm)))
      (by simp)]
    simp
  unfold stripVersion
  simp only [hstart, if_true, hidx1, hdrop, hidx2]
  unfold jsSubstringTo
  rw [hdata]
  apply String.ext
  have : ('@' :: sl) ++ '/' :: pl ++ '@' :: vl =
      (('@' :: sl) ++ '/' :: pl) ++ '@' :: vl := by simp
  rw [this]
  exact List.take_left' (by simp; omega)

theorem stripVersion_scoped_no_suffix (scope pkg : String)
    (hsl : '/' ∉ scope.toList) (hpk : '@' ∉ pkg.toList) :
    stripVersion ("@" ++ scope ++ "/" ++ pkg) = "@" ++ scope ++ "/" ++ pkg := by
  obtain ⟨sl⟩ := scope
  obtain ⟨pl⟩ := pkg
  have hshape : ("@" ++ String.mk sl ++ "/" ++ String.mk pl : String) =
      String.mk ('@' :: sl) ++ String.mk ('/' :: pl) ++ String.mk [] := by
    apply String.ext
    simp [String.data_append]
  rw [hshape]
  have hdata := scoped_toList sl pl []
  have hstart : jsStartsWith
      (String.mk ('@' :: sl) ++ String.mk ('/' :: pl) ++ String.mk []) "@" = true := by
    unfold jsStartsWith
    rw [hdata]
    simp [List.isPrefixOf]
  have hidx1 : jsIndexOf
      (String.mk ('@' :: sl) ++ String.mk ('/' :: pl) ++ String.mk []) '/' =
      some (sl.length + 1) := by
    unfold jsIndexOf
    rw [hdata]
    have : ('@' :: sl) ++ '/' :: pl ++ [] = ('@' :: sl) ++ '/' :: (pl ++ []) := by simp
    rw [this]
    rw [jsIndexOfAux_append _ ('@' :: sl) _ '/'
      (fun x hx => by
        rcases List.mem_cons.mp hx with he | hm
        · exact beq_char_false (by simp [he])
        · exact beq_char_false (fun he2 => hsl (he2 ▸ hm)))
      (by simp)]
    simp
  have hdrop : jsSubstringFrom
      (String.mk ('@' :: sl) ++ String.mk ('/' :: pl) ++ String.mk [])
      (sl.length + 1) = String.mk ('/' :: pl) := by
    unfold jsSubstringFrom
    rw [hdata]
    apply congrArg
    have : ('@' :: sl) ++ '/' :: pl ++ [] = ('@' :: sl) ++ ('/' :: pl) := by simp
    rw [this]
    have hlen : ('@' :: sl).length = sl.length + 1 := by simp
    rw [← hlen, List.drop_left]
  have hidx2 : jsIndexOf (String.mk ('/' :: pl)) '@' = none := by
    unfold jsIndexOf
    apply jsIndexOfAux_eq_none
    intro x hx
    rcases List.mem_cons.mp hx with he | hm
    · exact beq_char_false (by simp [he])
    · exact beq_char_false (fun he2 => hpk (he2 ▸ hm))
  unfold stripVersion
  simp only [hstart, if_true, hidx1, hdrop, hidx2]

/-! ## Claims -/

/-- Claim C5: `stripVersion` removes a version/tag suffix and preserves
scoping, and leaves suffix-free identifiers unchanged.  The first conjuncts
state this for every identifier (unscoped with and without suffix, scoped
with and without suffix); the last four are the spec's concrete examples. -/
theorem stripVersion_spec :
    (∀ base ver : String, base.toList ≠ [] → '@' ∉ base.toList →
      stripVersion (base ++ "@" ++ ver) = base) ∧
    (∀ s : String, '@' ∉ s.toList → stripVersion s = s) ∧
    (∀ scope pkg ver : String, '/' ∉ scope.toList → '@' ∉ pkg.toList →
      stripVersion ("@" ++ scope ++ "/" ++ pkg ++ "@" ++ ver) = "@" ++ scope ++ "/" ++ pkg) ∧
    (∀ scope pkg : String, '/' ∉ scope.toList → '@' ∉ pkg.toList →
      stripVersion ("@" ++ scope ++ "/" ++ pkg) = "@" ++ scope ++ "/" ++ pkg) ∧
    stripVersion "left-pad@1.2.3" = "left-pad" ∧
    stripVersion "@scope/pkg@1.0.0" = "@scope/pkg" ∧
    stripVersion "@scope/pkg" = "@scope/pkg" ∧
    stripVersion "pkg" = "pkg" :=
  ⟨stripVersion_unscoped, stripVersion_no_at, stripVersion_scoped,
    stripVersion_scoped_no_suffix, by decide, by decide, by decide, by decide⟩

/-- Witness for C5: the universally quantified conjuncts instantiated at the
spec's own examples, with every hypothesis discharged concretely. -/
theorem stripVersion_spec_witness :
    stripVersion ("left-pad" ++ "@" ++ "1.2.3") = "left-pad" ∧
    stripVersion "pkg" = "pkg" ∧
    stripVersion ("@" ++ "scope" ++ "/" ++ "pkg" ++ "@" ++ "1.0.0") =
      "@" ++ "scope" ++ "/" ++ "pkg" ∧
    stripVersion ("@" ++ "scope" ++ "/" ++ "pkg") = "@" ++ "scope" ++ "/" ++ "pkg" :=
  ⟨stripVersion_spec.1 "left-pad" "1.2.3" (by decide) (by decide),
    stripVersion_spec.2.1 "pkg" (by decide),
    stripVersion_spec.2.2.1 "scope" "pkg" "1.0.0" (by decide) (by decide),
    stripVersion_spec.2.2.2.1 "scope" "pkg" (by decide) (by decide)⟩

/-- Claim C1 (evaluation at the failing input): with both `foo-npm-1.patch`
and `foo-bar-npm-1.patch` present, `findExistingPatches` for package `foo`
returns BOTH files, because `foo-bar-npm-1.patch` also starts with `foo-`;
the claimed guarantee that only `foo-npm-1.patch` is returned fails. -/
theorem findExistingPatches_prefix_false_positive :
    findExistingPatches "foo" ".yarn/patches"
      ⟨fun _ => true, fun _ => ["foo-npm-1.patch", "foo-bar-npm-1.patch"]⟩ =
      [".yarn/patches/foo-npm-1.patch", ".yarn/patches/foo-bar-npm-1.patch"] := by
  decide

/-- Claim C7: when the patches directory is inaccessible, the Patch Locator
returns the empty list (no error path exists in the embedding). -/
theorem findExistingPatches_missing_dir (packageName patchesDir : String) (fsys : FS)
    (h : fsys.accessOk patchesDir = false) :
    findExistingPatches packageName patchesDir fsys = [] := by
  simp [findExistingPatches, h]

/-- Witness for C7 at a concrete inaccessible directory that does contain a
matching entry, showing the listing is never consulted. -/
theorem findExistingPatches_missing_dir_witness :
    findExistingPatches "pkg" "patches"
      ⟨fun _ => false, fun _ => ["pkg-npm-1.patch"]⟩ = [] :=
  findExistingPatches_missing_dir "pkg" "patches" _ rfl

/-- Strategy A's dry-run invocation is check-mode. -/
theorem isCheckMode_patchDryRunInv (p t : String) :
    isCheckMode (patchDryRunInv p t) = true := rfl

/-- Strategy B's check invocation is check-mode. -/
theorem isCheckMode_gitCheckInv (p t : String) :
    isCheckMode (gitCheckInv p t) = true := by
  simp [isCheckMode, gitCheckInv]

/-- Claim C2: the Patch Applier runs Strategy A's dry run first; on its
success it performs the real A apply (`canApply = true`,
`success =` whether the apply exited 0); Strategy B's check runs only when
the dry run failed, analogously; when both checks fail it returns
`canApply = false`, `success = false` with the first non-empty diagnostic
captured from the failed checks. -/
theorem tryApplyPatch_strategy_fallback (patchPath targetDir : String)
    (resolve : String → String) (run : Invocation → RunResult) :
    ((tryApplyPatch patchPath targetDir resolve run).2.head? =
      some (patchDryRunInv (resolve patchPath) targetDir)) ∧
    ((run (patchDryRunInv (resolve patchPath) targetDir)).code = 0 →
      tryApplyPatch patchPath targetDir resolve run =
        (⟨(run (patchApplyInv (resolve patchPath) targetDir)).code == 0,
            jsOrS (run (patchApplyInv (resolve patchPath) targetDir)).stdout
              (run (patchApplyInv (resolve patchPath) targetDir)).stderr, true⟩,
          [patchDryRunInv (resolve patchPath) targetDir,
            patchApplyInv (resolve patchPath) targetDir])) ∧
    (¬ (run (patchDryRunInv (resolve patchPath) targetDir)).code = 0 →
      (run (gitCheckInv (resolve patchPath) targetDir)).code = 0 →
      tryApplyPatch patchPath targetDir resolve run =
        (⟨(run (gitApplyInv (resolve patchPath) targetDir)).code == 0,
            jsOrS (run (gitApplyInv (resolve patchPath) targetDir)).stdout
              (run (gitApplyInv (resolve patchPath) targetDir)).stderr, true⟩,
          [patchDryRunInv (resolve patchPath) targetDir,
            gitCheckInv (resolve patchPath) targetDir,
            gitApplyInv (resolve patchPath) targetDir])) ∧
    (¬ (run (patchDryRunInv (resolve patchPath) targetDir)).code = 0 →
      ¬ (run (gitCheckInv (resolve patchPath) targetDir)).code = 0 →
      tryApplyPatch patchPath targetDir resolve run =
        (⟨false,
            jsOrS (jsOrS (jsOrS (run (patchDryRunInv (resolve patchPath) targetDir)).stderr
                (run (patchDryRunInv (resolve patchPath) targetDir)).stdout)
                (run (gitCheckInv (resolve patchPath) targetDir)).stderr)
              (run (gitCheckInv (resolve patchPath) targetDir)).stdout, false⟩,
          [patchDryRunInv (resolve patchPath) targetDir,
            gitCheckInv (resolve patchPath) targetDir])) := by
  refine ⟨?_, ?_, ?_, ?_⟩
  · unfold tryApplyPatch
    by_cases h1 : (run (patchDryRunInv (resolve patchPath) targetDir)).code = 0
    · simp [h1]
    · by_cases h2 : (run (gitCheckInv (resolve patchPath) targetDir)).code = 0 <;>
        simp [h1, h2]
  · intro h1
    simp [tryApplyPatch, h1]
  · intro h1 h2
    simp [tryApplyPatch, h1, h2]
  · intro h1 h2
    simp [tryApplyPatch, h1, h2]

/-- Witness for C2: the three conditional branches instantiated at concrete
oracles (all commands succeed; `patch` fails while `git` succeeds; all
fail). -/
theorem tryApplyPatch_strategy_fallback_witness :
    (tryApplyPatch "p.patch" "t" id runAllOk =
      (⟨(runAllOk (patchApplyInv "p.patch" "t")).code == 0,
          jsOrS (runAllOk (patchApplyInv "p.patch" "t")).stdout
            (runAllOk (patchApplyInv "p.patch" "t")).stderr, true⟩,
        [patchDryRunInv "p.patch" "t", patchApplyInv "p.patch" "t"])) ∧
    (tryApplyPatch "p.patch" "t" id runPatchFailGitOk =
      (⟨(runPatchFailGitOk (gitApplyInv "p.patch" "t")).code == 0,
          jsOrS (runPatchFailGitOk (gitApplyInv "p.patch" "t")).stdout
            (runPatchFailGitOk (gitApplyInv "p.patch" "t")).stderr, true⟩,
        [patchDryRunInv "p.patch" "t", gitCheckInv "p.patch" "t",
          gitApplyInv "p.patch" "t"])) ∧
    (tryApplyPatch "p.patch" "t" id runAllFail =
      (⟨false,
          jsOrS (jsOrS (jsOrS (runAllFail (patchDryRunInv "p.patch" "t")).stderr
              (runAllFail (patchDryRunInv "p.patch" "t")).stdout)
              (runAllFail (gitCheckInv "p.patch" "t")).stderr)
            (runAllFail (gitCheckInv "p.patch" "t")).stdout, false⟩,
        [patchDryRunInv "p.patch" "t", gitCheckInv "p.patch" "t"])) :=
  ⟨(tryApplyPatch_strategy_fallback "p.patch" "t" id runAllOk).2.1 (by decide),
    (tryApplyPatch_strategy_fallback "p.patch" "t" id runPatchFailGitOk).2.2.1
      (by decide) (by decide),
    (tryApplyPatch_strategy_fallback "p.patch" "t" id runAllFail).2.2.2
      (by decide) (by decide)⟩

/-- Claim C6: when both checks fail, the Patch Applier reports
`canApply = false`, `success = false`, and the trace of issued commands
consists only of check-mode (dry-run) invocations, so the target directory
is never touched by an apply-mode command. -/
theorem tryApplyPatch_frame_on_failure (patchPath targetDir : String)
    (resolve : String → String) (run : Invocation → RunResult)
    (hA : ¬ (run (patchDryRunInv (resolve patchPath) targetDir)).code = 0)
    (hB : ¬ (run (gitCheckInv (resolve patchPath) targetDir)).code = 0) :
    (tryApplyPatch patchPath targetDir resolve run).1.canApply = false ∧
    (tryApplyPatch patchPath targetDir resolve run).1.success = false ∧
    ∀ inv ∈ (tryApplyPatch patchPath targetDir resolve run).2,
      isCheckMode inv = true := by
  refine ⟨?_, ?_, ?_⟩
  · simp [tryApplyPatch, hA, hB]
  · simp [tryApplyPatch, hA, hB]
  · simp only [tryApplyPatch, hA, hB, if_false]
    intro inv hinv
    simp only [List.mem_cons, List.not_mem_nil, or_false] at hinv
    rcases hinv with rfl | rfl
    · exact isCheckMode_patchDryRunInv _ _
    · exact isCheckMode_gitCheckInv _ _

/-- Witness for C6: both checks fail under the all-fail oracle. -/
theorem tryApplyPatch_frame_on_failure_witness :
    (tryApplyPatch "p.patch" "t" id runAllFail).1.canApply = false ∧
    (tryApplyPatch "p.patch" "t" id runAllFail).1.success = false ∧
    ∀ inv ∈ (tryApplyPatch "p.patch" "t" id runAllFail).2,
      isCheckMode inv = true :=
  tryApplyPatch_frame_on_failure "p.patch" "t" id runAllFail (by decide) (by decide)

/-- Claim C10: on every return path of the Patch Applier, a successful apply
implies the patch was applicable: `success = true → canApply = true`. -/
theorem tryApplyPatch_success_implies_canApply (patchPath targetDir : String)
    (resolve : String → String) (run : Invocation → RunResult)
    (h : (tryApplyPatch patchPath targetDir resolve run).1.success = true) :
    (tryApplyPatch patchPath targetDir resolve run).1.canApply = true := by
  by_cases h1 : (run (patchDryRunInv (resolve patchPath) targetDir)).code = 0
  · simp [tryApplyPatch, h1]
  · by_cases h2 : (run (gitCheckInv (resolve patchPath) targetDir)).code = 0
    · simp [tryApplyPatch, h1, h2]
    · simp [tryApplyPatch, h1, h2] at h

/-- Witness for C10 under the all-success oracle. -/
theorem tryApplyPatch_success_implies_canApply_witness :
    (tryApplyPatch "p.patch" "t" id runAllOk).1.canApply = true :=
  tryApplyPatch_success_implies_canApply "p.patch" "t" id runAllOk (by decide)

/-- Closed form of the cleanup step when old patches exist and a new patch
was produced. -/
theorem cleanupStep_pos (existingPatches currentPatches : List String)
    (unlinkOk : String → Bool) (h1 : existingPatches.length > 0)
    (h2 : (newlyCreated existingPatches currentPatches).length > 0) :
    cleanupStep existingPatches currentPatches unlinkOk =
      ⟨existingPatches, existingPatches.filter (fun p => unlinkOk p),
        existingPatches.filter (fun p => !(unlinkOk p))⟩ := by
  unfold cleanupStep
  rw [if_pos h1, if_pos h2]

/-- Closed form of the cleanup step when no new patch was produced. -/
theorem cleanupStep_nonew (existingPatches currentPatches : List String)
    (unlinkOk : String → Bool)
    (h2 : ¬ (newlyCreated existingPatches currentPatches).length > 0) :
    cleanupStep existingPatches currentPatches unlinkOk = ⟨[], [], []⟩ := by
  unfold cleanupStep
  by_cases h1 : existingPatches.length > 0
  · rw [if_pos h1, if_neg h2]
  · rw [if_neg h1]

/-- Closed form of the cleanup step when there were no old patches. -/
theorem cleanupStep_noold (existingPatches currentPatches : List String)
    (unlinkOk : String → Bool) (h1 : ¬ existingPatches.length > 0) :
    cleanupStep existingPatches currentPatches unlinkOk = ⟨[], [], []⟩ := by
  unfold cleanupStep
  rw [if_neg h1]

/-- Claim C4: the cleanup step attempts to delete exactly the whole "before"
set when some current patch has a basename outside the "before" basenames
(the `new` set), and nothing otherwise; a successful unlink lands in
`deleted`, a failed one only in `warnings`, and every attempted deletion ends
in one of the two (no failure path escapes the loop). -/
theorem cleanupStep_deletes_iff_new (existingPatches currentPatches : List String)
    (unlinkOk : String → Bool) :
    (cleanupStep existingPatches currentPatches unlinkOk).attempted =
      (if (newlyCreated existingPatches currentPatches).length > 0
        then existingPatches else []) ∧
    (cleanupStep existingPatches currentPatches unlinkOk).deleted =
      (cleanupStep existingPatches currentPatches unlinkOk).attempted.filter
        (fun p => unlinkOk p) ∧
    (cleanupStep existingPatches currentPatches unlinkOk).warnings =
      (cleanupStep existingPatches currentPatches unlinkOk).attempted.filter
        (fun p => !(unlinkOk p)) ∧
    ∀ p ∈ (cleanupStep existingPatches currentPatches unlinkOk).attempted,
      p ∈ (cleanupStep existingPatches currentPatches unlinkOk).deleted ∨
        p ∈ (cleanupStep existingPatches currentPatches unlinkOk).warnings := by
  by_cases h2 : (newlyCreated existingPatches currentPatches).length > 0
  · by_cases h1 : existingPatches.length > 0
    · rw [cleanupStep_pos existingPatches currentPatches unlinkOk h1 h2, if_pos h2]
      refine ⟨rfl, rfl, rfl, ?_⟩
      intro p hp
      by_cases hu : unlinkOk p = true
      · exact Or.inl (List.mem_filter.mpr ⟨hp, hu⟩)
      · exact Or.inr (List.mem_filter.mpr ⟨hp, by simp [Bool.eq_false_iff.mpr hu]⟩)
    · have hnil : existingPatches = [] := List.length_eq_zero.mp (by omega)
      rw [cleanupStep_noold existingPatches currentPatches unlinkOk h1, if_pos h2, hnil]
      simp
  · rw [cleanupStep_nonew existingPatches currentPatches unlinkOk h2, if_neg h2]
    simp

/-- Claim C3: after a successful run in which the patches directory holds the
old patches plus exactly one new patch file (new basename), all old patches
are deleted and the new one is the only remaining patch; this covers both the
demo scenario (one old patch) and the no-old-patch case. -/
theorem one_active_patch_after_run (before : List String) (newPatch : String)
    (unlinkOk : String → Bool)
    (hunlink : ∀ p ∈ before, unlinkOk p = true)
    (hnew : (before.map basename).contains (basename newPatch) = false) :
    remainingPatches (before ++ [newPatch])
      (cleanupStep before (before ++ [newPatch]) unlinkOk).deleted = [newPatch] := by
  have hnb : basename newPatch ∉ before.map basename := by simpa using hnew
  have hnp : newPatch ∉ before := fun hmem => hnb (List.mem_map_of_mem _ hmem)
  rcases hb : before with _ | ⟨a, as⟩
  · simp [cleanupStep, remainingPatches]
  · rw [← hb]
    have hlen : before.length > 0 := by rw [hb]; simp
    have hfilter : newlyCreated before (before ++ [newPatch]) = [newPatch] := by
      unfold newlyCreated
      rw [List.filter_append]
      have hl : before.filter
          (fun p => !((before.map basename).contains (basename p))) = [] := by
        apply List.filter_eq_nil_iff.mpr
        intro p hp
        have : basename p ∈ before.map basename := List.mem_map_of_mem _ hp
        simp [this]
      have hr : [newPatch].filter
          (fun p => !((before.map basename).contains (basename p))) = [newPatch] := by
        simpa using hnb
      rw [hl, hr, List.nil_append]
    have hdel : (cleanupStep before (before ++ [newPatch]) unlinkOk).deleted = before := by
      rw [cleanupStep_pos before (before ++ [newPatch]) unlinkOk hlen
        (by rw [hfilter]; simp)]
      exact List.filter_eq_self.mpr hunlink
    rw [hdel]
    unfold remainingPatches
    rw [List.filter_append]
    have hl2 : before.filter (fun p => !(before.contains p)) = [] := by
      apply List.filter_eq_nil_iff.mpr
      intro p hp
      simp [hp]
    have hr2 : [newPatch].filter (fun p => !(before.contains p)) = [newPatch] := by
      simp [hnp]
    rw [hl2, hr2, List.nil_append]

/-- Witness for C3: the spec's demo scenario with
`demo-pkg-npm-1.0.0-aaaa.patch` superseded by
`demo-pkg-npm-1.0.0-bbbb.patch`. -/
theorem one_active_patch_after_run_witness :
    remainingPatches
      ([".yarn/patches/demo-pkg-npm-1.0.0-aaaa.patch"] ++
        [".yarn/patches/demo-pkg-npm-1.0.0-bbbb.patch"])
      (cleanupStep [".yarn/patches/demo-pkg-npm-1.0.0-aaaa.patch"]
        ([".yarn/patches/demo-pkg-npm-1.0.0-aaaa.patch"] ++
          [".yarn/patches/demo-pkg-npm-1.0.0-bbbb.patch"])
        (fun _ => true)).deleted =
      [".yarn/patches/demo-pkg-npm-1.0.0-bbbb.patch"] :=
  one_active_patch_after_run [".yarn/patches/demo-pkg-npm-1.0.0-aaaa.patch"]
    ".yarn/patches/demo-pkg-npm-1.0.0-bbbb.patch" (fun _ => true)
    (by intro p hp; rfl) (by decide)

/-- Claim C8: when the requested package's Target Directory is absent under
`node_modules`, the run exits with code 1, prints the message naming the
missing path, and issues no subprocess invocation and no deletion — so no
patch file can have been created. -/
theorem main_missing_target_dir (env : Env) (pkg : String)
    (hv : env.argv.contains "--version" = false)
    (hv2 : env.argv.contains "-v" = false)
    (hpkg : packageNameOf env.argv = some pkg)
    (hne : ¬ pkg = "")
    (hh : env.argv.contains "--help" = false)
    (hh2 : env.argv.contains "-h" = false)
    (hacc : env.fsBefore.accessOk (nodeModulesPathOf env.cwd pkg) = false) :
    main env = ⟨1, [],
      [missingPackageMsg (stripVersion pkg) (nodeModulesPathOf env.cwd pkg)],
      [], [], []⟩ := by
  have h1 : "--version" ∉ env.argv := by simpa using hv
  have h2 : "-v" ∉ env.argv := by simpa using hv2
  have h3 : "--help" ∉ env.argv := by simpa using hh
  have h4 : "-h" ∉ env.argv := by simpa using hh2
  have h5 : (pkg == "") = false := beq_eq_false_iff_ne.mpr hne
  simp [main, h1, h2, h3, h4, h5, hne, hpkg, hacc]

/-- Witness for C8: a concrete environment whose `left-pad` directory is
absent. -/
theorem main_missing_target_dir_witness :
    main envMissing = ⟨1, [],
      [missingPackageMsg (stripVersion "left-pad") (nodeModulesPathOf "/w" "left-pad")],
      [], [], []⟩ :=
  main_missing_target_dir envMissing "left-pad" (by decide) (by decide) (by decide)
    (by decide) (by decide) (by decide) (by decide)

/-- Claim C9 counterexample: the invocation `-v` supplies no package
identifier, yet the tool prints the version string, not the help text (it
does exit 0); the claim that every package-less invocation prints the help
text is therefore false as stated. -/
theorem main_version_flag_prints_version_not_help :
    packageNameOf envVersionOnly.argv = none ∧
    (main envVersionOnly).exitCode = 0 ∧
    (main envVersionOnly).printed = [OutMsg.versionStr "9.9.9"] ∧
    ¬ (main envVersionOnly).printed = [OutMsg.usageHelp] := by
  decide

/-- Claim C9 (amended): every invocation that supplies no package identifier
exits with code 0, and prints the help text whenever no version flag is
present (with `-v`/`--version` it prints the version string instead). -/
theorem main_no_package_exits_zero (env : Env)
    (hnp : packageNameOf env.argv = none) :
    (main env).exitCode = 0 ∧
    ((env.argv.contains "--version" || env.argv.contains "-v") = false →
      (main env).printed = [OutMsg.usageHelp]) := by
  by_cases hv : (env.argv.contains "--version" || env.argv.contains "-v") = true
  · have hmem : "--version" ∈ env.argv ∨ "-v" ∈ env.argv := by simpa using hv
    refine ⟨?_, ?_⟩
    · rcases hmem with h | h <;> simp [main, h]
    · intro hfalse
      rw [hv] at hfalse
      cases hfalse
  · have hv2 : (env.argv.contains "--version" || env.argv.contains "-v") = false :=
      Bool.eq_false_iff.mpr hv
    have hnm : "--version" ∉ env.argv ∧ "-v" ∉ env.argv := by simpa using hv2
    refine ⟨?_, fun _ => ?_⟩
    · simp [main, hnm.1, hnm.2, hnp, helpResult]
    · simp [main, hnm.1, hnm.2, hnp, helpResult]

/-- Witness for C9's amended claim: an invocation carrying only
`--patches-dir d` prints the help text and exits 0. -/
theorem main_no_package_exits_zero_witness :
    (main envFlagsOnly).exitCode = 0 ∧
    ((envFlagsOnly.argv.contains "--version" || envFlagsOnly.argv.contains "-v") = false →
      (main envFlagsOnly).printed = [OutMsg.usageHelp]) :=
  main_no_package_exits_zero envFlagsOnly (by decide)

end YarnEasyPatch
